import Mathlib

/-!
Writeback contexts of `include/linux/backing-dev-defs.h`.

A shallow embedding of the data model and the inline operations of
`backing-dev-defs.h`: the structures `bdi_writeback`, `backing_dev_info`
and `wb_completion`, the completion initialisers, and the reference
helpers `wb_tryget`, `wb_get`, `wb_put`, `wb_dying` in both build variants;
and of the flag table of `sched/sd_flags.h` as `sched/topology.h` expands it.

Memory is an explicit heap.  A pointer to a `bdi_writeback` is either the
address of the context embedded in a device (`&bdi->wb`) or the address of a
separately allocated context, so the test `wb != &wb->bdi->wb` of the source
is a comparison of pointers.
-/

set_option autoImplicit false

namespace BackingDev

/-! ## Pointers -/

/-- Address of a `struct backing_dev_info`. -/
abbrev BdiPtr := Nat

/-- Address of a `struct bdi_writeback`: `root b` is `&b->wb`, the context
embedded in the device at `b`; `cgwb k` is the `k`-th separately allocated
(cgroup) context. -/
inductive WbPtr where
  | root (b : BdiPtr)
  | cgwb (k : Nat)
  deriving DecidableEq, Repr

/-- Address of a `wait_queue_head_t`: `wb_waitq b` is `&b->wb_waitq`. -/
inductive WaitqPtr where
  | wb_waitq (b : BdiPtr)
  | other (a : Nat)
  deriving DecidableEq, Repr

/-! ## Enumerations -/

/-- Bit `WB_registered` of `enum wb_state`. -/
def WB_registered : Nat := 0
/-- Bit `WB_writeback_running` of `enum wb_state`. -/
def WB_writeback_running : Nat := 1
/-- Bit `WB_has_dirty_io` of `enum wb_state`. -/
def WB_has_dirty_io : Nat := 2
/-- Bit `WB_start_all` of `enum wb_state`. -/
def WB_start_all : Nat := 3

/-- Bit `WB_async_congested` of `enum wb_congested_state`. -/
def WB_async_congested : Nat := 0
/-- Bit `WB_sync_congested` of `enum wb_congested_state`. -/
def WB_sync_congested : Nat := 1

/-- Channel `BLK_RW_ASYNC`. -/
def BLK_RW_ASYNC : Int := 0
/-- Channel `BLK_RW_SYNC`. -/
def BLK_RW_SYNC : Int := 1

/-! ## Structures -/

/-- The scalar fields of `struct bdi_writeback`.  `bdi` is the parent
pointer (`none` is the null pointer); `refcnt` is the `percpu_ref`, whose
representation `R` is left open. -/
structure bdi_writeback (R : Type) where
  bdi : Option BdiPtr
  state : Nat
  last_old_flush : Nat
  congested : Nat
  bw_time_stamp : Nat
  dirtied_stamp : Nat
  written_stamp : Nat
  write_bandwidth : Nat
  avg_write_bandwidth : Nat
  dirty_ratelimit : Nat
  balanced_dirty_ratelimit : Nat
  dirty_exceeded : Int
  dirty_sleep : Nat
  refcnt : R

/-- The fields of `struct backing_dev_info`: `wb` is the embedded root
context, `wb_list` the list of all contexts of the device. -/
structure backing_dev_info (R : Type) where
  id : Nat
  ra_pages : Nat
  io_pages : Nat
  capabilities : Nat
  min_ratio : Nat
  max_ratio : Nat
  max_prop_frac : Nat
  tot_write_bandwidth : Int
  wb : bdi_writeback R
  wb_list : List WbPtr

/-- The heap: the devices and the separately allocated contexts. -/
structure Heap (R : Type) where
  bdis : BdiPtr → backing_dev_info R
  cgwbs : Nat → bdi_writeback R

/-- Load `*wb`. -/
def Heap.wb {R : Type} (h : Heap R) : WbPtr → bdi_writeback R
  | WbPtr.root b => (h.bdis b).wb
  | WbPtr.cgwb k => h.cgwbs k

/-- Store `*wb = w`. -/
def Heap.set_wb {R : Type} (h : Heap R) (wb : WbPtr) (w : bdi_writeback R) : Heap R :=
  match wb with
  | WbPtr.root b =>
    { h with bdis := Function.update h.bdis b { h.bdis b with wb := w } }
  | WbPtr.cgwb k =>
    { h with cgwbs := Function.update h.cgwbs k w }

/-- The comparison `wb == &wb->bdi->wb`.  With a null `wb->bdi` the right
hand side is the offset of the member `wb`, which is the address of no
context. -/
def wb_is_root {R : Type} (h : Heap R) (wb : WbPtr) : Bool :=
  match (h.wb wb).bdi with
  | some b => decide (wb = WbPtr.root b)
  | none => false

/-! ## The `percpu_ref` interface -/

/-- The operations of `linux/percpu-refcount.h` that the header calls, on a
reference of representation `R`.  `percpu_ref_put` also tells whether the
put was refused. -/
structure percpu_ref_ops (R : Type) where
  percpu_ref_tryget : R → Bool × R
  percpu_ref_get : R → R
  percpu_ref_put : R → Bool × R
  percpu_ref_is_dying : R → Bool

/-- The value of `WARN_ON_ONCE(c)`: its condition. -/
def WARN_ON_ONCE (c : Bool) : Bool := c

/-! ## Reference helpers, `CONFIG_CGROUP_WRITEBACK` -/

/-- The helper `wb_tryget`: try to increment a wb's refcount. -/
def wb_tryget {R : Type} (ops : percpu_ref_ops R) (h : Heap R) (wb : WbPtr) :
    Bool × Heap R :=
  if wb_is_root h wb = false then
    let r := ops.percpu_ref_tryget (h.wb wb).refcnt
    (r.1, h.set_wb wb { h.wb wb with refcnt := r.2 })
  else
    (true, h)

/-- The helper `wb_get`: increment a wb's refcount. -/
def wb_get {R : Type} (ops : percpu_ref_ops R) (h : Heap R) (wb : WbPtr) : Heap R :=
  if wb_is_root h wb = false then
    h.set_wb wb { h.wb wb with refcnt := ops.percpu_ref_get (h.wb wb).refcnt }
  else
    h

/-- What a call of `wb_put` did: whether `WARN_ON_ONCE(!wb->bdi)` fired,
whether `percpu_ref_put` refused the put, and the heap it left. -/
structure wb_put_result (R : Type) where
  warned : Bool
  rejected : Bool
  heap : Heap R

/-- The helper `wb_put`: decrement a wb's refcount. -/
def wb_put {R : Type} (ops : percpu_ref_ops R) (h : Heap R) (wb : WbPtr) :
    wb_put_result R :=
  if WARN_ON_ONCE ((h.wb wb).bdi.isNone) then
    { warned := true, rejected := false, heap := h }
  else if wb_is_root h wb = false then
    let r := ops.percpu_ref_put (h.wb wb).refcnt
    { warned := false, rejected := r.1,
      heap := h.set_wb wb { h.wb wb with refcnt := r.2 } }
  else
    { warned := false, rejected := false, heap := h }

/-- The helper `wb_dying`: is a wb dying? -/
def wb_dying {R : Type} (ops : percpu_ref_ops R) (h : Heap R) (wb : WbPtr) : Bool :=
  ops.percpu_ref_is_dying (h.wb wb).refcnt

/-! ## Reference helpers, without `CONFIG_CGROUP_WRITEBACK` -/

namespace NoCgroup

/-- The stub `wb_tryget` without cgroup writeback. -/
def wb_tryget {R : Type} (h : Heap R) (_wb : WbPtr) : Bool × Heap R := (true, h)

/-- The stub `wb_get` without cgroup writeback. -/
def wb_get {R : Type} (h : Heap R) (_wb : WbPtr) : Heap R := h

/-- The stub `wb_put` without cgroup writeback. -/
def wb_put {R : Type} (h : Heap R) (_wb : WbPtr) : Heap R := h

/-- The stub `wb_dying` without cgroup writeback. -/
def wb_dying {R : Type} (_h : Heap R) (_wb : WbPtr) : Bool := false

end NoCgroup

/-! ## The reference count of the specification -/

/-- Modelled from the spec: `struct percpu_ref` of `linux/percpu-refcount.h`,
which is not part of the sources at hand.  The specification speaks of a
reference count and of a context that is transitioning to Dying. -/
structure percpu_ref where
  count : Nat
  dying : Bool
  deriving DecidableEq, Repr

/-- Modelled from the spec: `percpu_ref_get` of `linux/percpu-refcount.h`
(standard reference counting: one more reference). -/
def percpu_ref_get (r : percpu_ref) : percpu_ref :=
  { r with count := r.count + 1 }

/-- Modelled from the spec: `percpu_ref_tryget` of `linux/percpu-refcount.h`
(`try_get` fails if the context is already transitioning to Dying). -/
def percpu_ref_tryget (r : percpu_ref) : Bool × percpu_ref :=
  if r.dying then (false, r) else (true, { r with count := r.count + 1 })

/-- Modelled from the spec: `percpu_ref_put` of `linux/percpu-refcount.h`
(one reference less; on reaching zero the context transitions to Dying; a
put past zero is rejected, never silently accepted). -/
def percpu_ref_put (r : percpu_ref) : Bool × percpu_ref :=
  if r.count = 0 then (true, r)
  else (false, { count := r.count - 1, dying := r.dying || decide (r.count - 1 = 0) })

/-- Modelled from the spec: `percpu_ref_is_dying` of
`linux/percpu-refcount.h` (whether the context is Dying). -/
def percpu_ref_is_dying (r : percpu_ref) : Bool := r.dying

/-- The reference count of the specification as a `percpu_ref_ops`. -/
def spec_ref_ops : percpu_ref_ops percpu_ref where
  percpu_ref_tryget := percpu_ref_tryget
  percpu_ref_get := percpu_ref_get
  percpu_ref_put := percpu_ref_put
  percpu_ref_is_dying := percpu_ref_is_dying

/-! ## Sample heaps -/

/-- A context with every scalar zero. -/
def zero_wb (bdi : Option BdiPtr) (refcnt : percpu_ref) : bdi_writeback percpu_ref where
  bdi := bdi
  state := 0
  last_old_flush := 0
  congested := 0
  bw_time_stamp := 0
  dirtied_stamp := 0
  written_stamp := 0
  write_bandwidth := 0
  avg_write_bandwidth := 0
  dirty_ratelimit := 0
  balanced_dirty_ratelimit := 0
  dirty_exceeded := 0
  dirty_sleep := 0
  refcnt := refcnt

/-- A heap in which every device `b` has its root context linked to `b`,
context 0 is a live context of device 0 holding two references, context 1 is
a dying context of device 0 with no reference left, and every other
separately allocated context has no device link. -/
def sample_heap : Heap percpu_ref where
  bdis := fun b =>
    { id := b, ra_pages := 0, io_pages := 0, capabilities := 0, min_ratio := 0,
      max_ratio := 100, max_prop_frac := 0, tot_write_bandwidth := 0,
      wb := zero_wb (some b) { count := 0, dying := false },
      wb_list := if b = 0 then [WbPtr.root 0, WbPtr.cgwb 0, WbPtr.cgwb 1]
                 else [WbPtr.root b] }
  cgwbs := fun k =>
    if k = 0 then zero_wb (some 0) { count := 2, dying := false }
    else if k = 1 then zero_wb (some 0) { count := 0, dying := true }
    else zero_wb none { count := 0, dying := false }

/-! ## Sequences of reference helper calls -/

/-- One call of a reference helper. -/
inductive wb_ref_call where
  | tryget
  | get
  | put
  deriving DecidableEq, Repr

/-- The heap after one call of a reference helper on `wb`. -/
def wb_ref_call.run {R : Type} (ops : percpu_ref_ops R) (wb : WbPtr) (h : Heap R) :
    wb_ref_call → Heap R
  | wb_ref_call.tryget => (wb_tryget ops h wb).2
  | wb_ref_call.get => wb_get ops h wb
  | wb_ref_call.put => (wb_put ops h wb).heap

/-- The heap after a sequence of reference helper calls on `wb`. -/
def run_ref_calls {R : Type} (ops : percpu_ref_ops R) (wb : WbPtr) (h : Heap R)
    (calls : List wb_ref_call) : Heap R :=
  calls.foldl (wb_ref_call.run ops wb) h

/-! ## Completions -/

/-- The type `atomic_t`: a counter. -/
structure atomic_t where
  counter : Int
  deriving DecidableEq, Repr

/-- The initialiser `ATOMIC_INIT(i)`. -/
def ATOMIC_INIT (i : Int) : atomic_t := { counter := i }

/-- The structure `wb_completion`. -/
structure wb_completion where
  cnt : atomic_t
  waitq : WaitqPtr
  deriving DecidableEq, Repr

/-- The initialiser `__WB_COMPLETION_INIT(_waitq)`. -/
def __WB_COMPLETION_INIT (_waitq : WaitqPtr) : wb_completion :=
  { cnt := ATOMIC_INIT 1, waitq := _waitq }

/-- The initialiser `WB_COMPLETION_INIT(bdi)`. -/
def WB_COMPLETION_INIT (bdi : BdiPtr) : wb_completion :=
  __WB_COMPLETION_INIT (WaitqPtr.wb_waitq bdi)

/-- The completion that `DEFINE_WB_COMPLETION(cmpl, bdi)` declares. -/
def DEFINE_WB_COMPLETION (bdi : BdiPtr) : wb_completion :=
  WB_COMPLETION_INIT bdi

/-- Modelled from the spec: the enqueue of a work item that carries the
completion (the work executor is not part of the sources at hand): it adds
one unit to the count. -/
def completion_enqueue (c : wb_completion) : wb_completion :=
  { c with cnt := { counter := c.cnt.counter + 1 } }

/-- Modelled from the spec: one decrement of the completion, by a finished
work item or by the issuer giving up its initial unit (the work executor is
not part of the sources at hand): it subtracts one, and the waiters are woken
when the count reaches zero.  The first component tells whether they were. -/
def completion_decrement (c : wb_completion) : Bool × wb_completion :=
  (decide (c.cnt.counter - 1 = 0), { c with cnt := { counter := c.cnt.counter - 1 } })

/-- The completion after `k` work items have been enqueued with it. -/
def completion_enqueue_n : Nat → wb_completion → wb_completion
  | 0, c => c
  | k + 1, c => completion_enqueue_n k (completion_enqueue c)

/-- The number of wake-ups and the completion after `j` decrements. -/
def completion_decrement_n : Nat → wb_completion → Nat × wb_completion
  | 0, c => (0, c)
  | j + 1, c =>
    let r := completion_decrement c
    let rest := completion_decrement_n j r.2
    ((if r.1 then 1 else 0) + rest.1, rest.2)

/-! ## Bit operations -/

/-- Modelled from the spec: `test_bit` of the bit operations (not part of the
sources at hand): whether bit `nr` of the word is set. -/
def test_bit (nr : Nat) (word : Nat) : Bool := word.testBit nr

/-- Modelled from the spec: `set_bit` of the bit operations (not part of the
sources at hand): the word with bit `nr` set. -/
def set_bit (nr : Nat) (word : Nat) : Nat := word ||| (1 <<< nr)

/-- Modelled from the spec: `clear_bit` of the bit operations (not part of
the sources at hand): the word with bit `nr` cleared. -/
def clear_bit (nr : Nat) (word : Nat) : Nat := word ^^^ (word &&& (1 <<< nr))

/-! ## Aggregate bandwidth -/

/-- Whether the `WB_has_dirty_io` bit of the context's state is set. -/
def wb_has_dirty_io {R : Type} (w : bdi_writeback R) : Bool :=
  test_bit WB_has_dirty_io w.state

/-- Add `delta` to `bdi->tot_write_bandwidth`. -/
def Heap.add_tot_write_bandwidth {R : Type} (h : Heap R) (bdi : BdiPtr) (delta : Int) :
    Heap R :=
  let d := h.bdis bdi
  let d1 := { d with tot_write_bandwidth := d.tot_write_bandwidth + delta }
  { h with bdis := Function.update h.bdis bdi d1 }

/-- Modelled from the spec: step 6 of the bandwidth estimation (the
estimator is not part of the sources at hand): the device aggregate is
adjusted by `new_avg - old_avg` whenever the context is flagged
has-dirty-io, and the context's average becomes `new_avg`.  On a context with
no owning device link the operation is aborted. -/
def wb_update_avg_write_bandwidth {R : Type} (h : Heap R) (wb : WbPtr) (new_avg : Nat) :
    Heap R :=
  match (h.wb wb).bdi with
  | none => h
  | some b =>
    let old_avg := (h.wb wb).avg_write_bandwidth
    let h1 := if wb_has_dirty_io (h.wb wb) then
        h.add_tot_write_bandwidth b ((new_avg : Int) - (old_avg : Int))
      else h
    h1.set_wb wb { h1.wb wb with avg_write_bandwidth := new_avg }

/-- Modelled from the spec: the has-dirty-io flag of a context is raised (the
executor is not part of the sources at hand): if the flag is changing, the
full `avg_write_bandwidth` is added to the device aggregate.  On a context
with no owning device link the operation is aborted. -/
def wb_set_has_dirty_io {R : Type} (h : Heap R) (wb : WbPtr) : Heap R :=
  match (h.wb wb).bdi with
  | none => h
  | some b =>
    if wb_has_dirty_io (h.wb wb) then h
    else
      let h1 := h.add_tot_write_bandwidth b ((h.wb wb).avg_write_bandwidth : Int)
      h1.set_wb wb { h1.wb wb with state := set_bit WB_has_dirty_io (h1.wb wb).state }

/-- Modelled from the spec: the has-dirty-io flag of a context is dropped (the
executor is not part of the sources at hand): if the flag is changing, the
full `avg_write_bandwidth` is subtracted from the device aggregate.  On a
context with no owning device link the operation is aborted. -/
def wb_clear_has_dirty_io {R : Type} (h : Heap R) (wb : WbPtr) : Heap R :=
  match (h.wb wb).bdi with
  | none => h
  | some b =>
    if wb_has_dirty_io (h.wb wb) then
      let h1 := h.add_tot_write_bandwidth b (-((h.wb wb).avg_write_bandwidth : Int))
      h1.set_wb wb { h1.wb wb with state := clear_bit WB_has_dirty_io (h1.wb wb).state }
    else h

/-- One bandwidth update or has-dirty-io flag change. -/
inductive bw_event where
  | update (wb : WbPtr) (new_avg : Nat)
  | set_dirty (wb : WbPtr)
  | clear_dirty (wb : WbPtr)
  deriving DecidableEq, Repr

/-- The heap after one event. -/
def bw_event.run {R : Type} (h : Heap R) : bw_event → Heap R
  | bw_event.update wb new_avg => wb_update_avg_write_bandwidth h wb new_avg
  | bw_event.set_dirty wb => wb_set_has_dirty_io h wb
  | bw_event.clear_dirty wb => wb_clear_has_dirty_io h wb

/-- The heap after a sequence of events. -/
def run_bw_events {R : Type} (h : Heap R) (events : List bw_event) : Heap R :=
  events.foldl bw_event.run h

/-- The sum of `avg_write_bandwidth` over the contexts of the device whose
`WB_has_dirty_io` bit is set. -/
def dirty_bandwidth_sum {R : Type} (h : Heap R) (bdi : BdiPtr) : Int :=
  ((((h.bdis bdi).wb_list.filter (fun p => wb_has_dirty_io (h.wb p))).map
    (fun p => ((h.wb p).avg_write_bandwidth : Int)))).sum

/-- What a context adds to the aggregate of its device: its
`avg_write_bandwidth` if its `WB_has_dirty_io` bit is set, nothing otherwise. -/
def dirty_contribution {R : Type} (w : bdi_writeback R) : Int :=
  if wb_has_dirty_io w then (w.avg_write_bandwidth : Int) else 0

/-- The list `bdi->wb_list` holds every context whose parent is the device,
each once, and no other. -/
def wb_list_ok {R : Type} (h : Heap R) (bdi : BdiPtr) : Prop :=
  (h.bdis bdi).wb_list.Nodup ∧
    ∀ p : WbPtr, p ∈ (h.bdis bdi).wb_list ↔ (h.wb p).bdi = some bdi

/-! ## Congestion -/

/-- Modelled from the spec: `set_bdi_congested`, declared in the header and
defined outside the sources at hand: it sets the sync or async congestion bit
of the device's congestion word, `bdi->wb.congested`. -/
def set_bdi_congested {R : Type} (h : Heap R) (bdi : BdiPtr) (sync : Int) : Heap R :=
  let bit := if sync ≠ 0 then WB_sync_congested else WB_async_congested
  h.set_wb (WbPtr.root bdi)
    { h.wb (WbPtr.root bdi) with congested := set_bit bit (h.wb (WbPtr.root bdi)).congested }

/-- Modelled from the spec: `clear_bdi_congested`, declared in the header and
defined outside the sources at hand: it clears the sync or async congestion
bit of the device's congestion word, `bdi->wb.congested`. -/
def clear_bdi_congested {R : Type} (h : Heap R) (bdi : BdiPtr) (sync : Int) : Heap R :=
  let bit := if sync ≠ 0 then WB_sync_congested else WB_async_congested
  h.set_wb (WbPtr.root bdi)
    { h.wb (WbPtr.root bdi) with congested := clear_bit bit (h.wb (WbPtr.root bdi)).congested }

/-- The congestion word of the device, `bdi->wb.congested`. -/
def bdi_congested_word {R : Type} (h : Heap R) (bdi : BdiPtr) : Nat :=
  (h.wb (WbPtr.root bdi)).congested

end BackingDev

/-! ## Scheduling domain flags, `sched/sd_flags.h` and `sched/topology.h` -/

namespace SchedTopology

/-- Metaflag `SDF_SHARED_CHILD`. -/
def SDF_SHARED_CHILD : Nat := 0x1
/-- Metaflag `SDF_SHARED_PARENT`. -/
def SDF_SHARED_PARENT : Nat := 0x2
/-- Metaflag `SDF_NEEDS_GROUPS`. -/
def SDF_NEEDS_GROUPS : Nat := 0x4

/-- One line `SD_FLAG(name, mflags)` of `sd_flags.h`. -/
structure sd_flag_decl where
  name : String
  mflags : Nat
  deriving DecidableEq, Repr

/-- The lines `SD_FLAG(name, mflags)` of `sd_flags.h`, in the order of the
file. -/
def sd_flags : List sd_flag_decl :=
  [
    { name := "SD_BALANCE_NEWIDLE", mflags := SDF_SHARED_CHILD ||| SDF_NEEDS_GROUPS },
    { name := "SD_BALANCE_EXEC", mflags := SDF_SHARED_CHILD ||| SDF_NEEDS_GROUPS },
    { name := "SD_BALANCE_FORK", mflags := SDF_SHARED_CHILD ||| SDF_NEEDS_GROUPS },
    { name := "SD_BALANCE_WAKE", mflags := SDF_SHARED_CHILD ||| SDF_NEEDS_GROUPS },
    { name := "SD_WAKE_AFFINE", mflags := SDF_SHARED_CHILD },
    { name := "SD_ASYM_CPUCAPACITY", mflags := SDF_SHARED_PARENT ||| SDF_NEEDS_GROUPS },
    { name := "SD_SHARE_CPUCAPACITY", mflags := SDF_SHARED_CHILD ||| SDF_NEEDS_GROUPS },
    { name := "SD_SHARE_PKG_RESOURCES", mflags := SDF_SHARED_CHILD ||| SDF_NEEDS_GROUPS },
    { name := "SD_SERIALIZE", mflags := SDF_SHARED_PARENT ||| SDF_NEEDS_GROUPS },
    { name := "SD_ASYM_PACKING", mflags := SDF_SHARED_CHILD ||| SDF_NEEDS_GROUPS },
    { name := "SD_PREFER_SIBLING", mflags := SDF_NEEDS_GROUPS },
    { name := "SD_OVERLAP", mflags := SDF_SHARED_PARENT ||| SDF_NEEDS_GROUPS },
    { name := "SD_NUMA", mflags := SDF_SHARED_PARENT ||| SDF_NEEDS_GROUPS }
  ]

/-- The values of the enumerators of a C enumeration without initialisers
whose first enumerator has value `start`: each is one more than the one
before. -/
def enum_values (start : Nat) : List String → List (String × Nat)
  | [] => []
  | n :: ns => (n, start) :: enum_values (start + 1) ns

/-- The first enumeration of `topology.h`: `sd_flags.h` included with
`SD_FLAG(name, mflags)` defined as `__##name,`, then `__SD_FLAG_CNT`. -/
def sd_flag_indexes : List (String × Nat) :=
  enum_values 0 (sd_flags.map (fun d => "__" ++ d.name) ++ ["__SD_FLAG_CNT"])

/-- The value of an enumerator of the first enumeration (0 for a name it
does not declare). -/
def sd_flag_index (name : String) : Nat :=
  (sd_flag_indexes.lookup name).getD 0

/-- The enumerator `__SD_FLAG_CNT`. -/
def __SD_FLAG_CNT : Nat := sd_flag_index "__SD_FLAG_CNT"

/-- The second enumeration of `topology.h`: `sd_flags.h` included with
`SD_FLAG(name, mflags)` defined as `name = 1 << __##name,`. -/
def sd_flag_bits : List (String × Nat) :=
  sd_flags.map (fun d => (d.name, 1 <<< sd_flag_index ("__" ++ d.name)))

/-- Whether a line of the table carries both `SDF_SHARED_CHILD` and
`SDF_SHARED_PARENT`. -/
def shared_child_and_parent (d : sd_flag_decl) : Bool :=
  (d.mflags &&& SDF_SHARED_CHILD != 0) && (d.mflags &&& SDF_SHARED_PARENT != 0)

end SchedTopology

namespace BackingDev

/-! ## Theorems -/

/-! ### The heap -/

theorem Heap.set_wb_self {R : Type} (h : Heap R) (wb : WbPtr) :
    h.set_wb wb (h.wb wb) = h := by
  cases wb with
  | root b =>
    show ({ h with bdis := Function.update h.bdis b { h.bdis b with wb := (h.bdis b).wb } }
      : Heap R) = h
    have hb : ({ h.bdis b with wb := (h.bdis b).wb } : backing_dev_info R) = h.bdis b := rfl
    rw [hb, Function.update_eq_self]
  | cgwb k =>
    show ({ h with cgwbs := Function.update h.cgwbs k (h.cgwbs k) } : Heap R) = h
    rw [Function.update_eq_self]

theorem wb_is_root_bdi {R : Type} (h : Heap R) (wb : WbPtr)
    (hroot : wb_is_root h wb = true) : (h.wb wb).bdi.isNone = false := by
  unfold wb_is_root at hroot
  cases hb : (h.wb wb).bdi with
  | none => simp [hb] at hroot
  | some b => rfl

theorem wb_is_root_of_no_bdi {R : Type} (h : Heap R) (wb : WbPtr)
    (hb : (h.wb wb).bdi = none) : wb_is_root h wb = false := by
  simp [wb_is_root, hb]

/-! ### The reference helpers on the root context -/

theorem wb_tryget_root {R : Type} (ops : percpu_ref_ops R) (h : Heap R) (wb : WbPtr)
    (hroot : wb_is_root h wb = true) : wb_tryget ops h wb = (true, h) := by
  simp [wb_tryget, hroot]

theorem wb_get_root {R : Type} (ops : percpu_ref_ops R) (h : Heap R) (wb : WbPtr)
    (hroot : wb_is_root h wb = true) : wb_get ops h wb = h := by
  simp [wb_get, hroot]

theorem wb_put_root {R : Type} (ops : percpu_ref_ops R) (h : Heap R) (wb : WbPtr)
    (hroot : wb_is_root h wb = true) :
    wb_put ops h wb = { warned := false, rejected := false, heap := h } := by
  have hb := wb_is_root_bdi h wb hroot
  simp [wb_put, WARN_ON_ONCE, hroot, hb]

theorem run_ref_calls_root {R : Type} (ops : percpu_ref_ops R) (h : Heap R) (wb : WbPtr)
    (hroot : wb_is_root h wb = true) (calls : List wb_ref_call) :
    run_ref_calls ops wb h calls = h := by
  induction calls with
  | nil => rfl
  | cons c cs ih =>
    have hc : wb_ref_call.run ops wb h c = h := by
      cases c
      · simp [wb_ref_call.run, wb_tryget_root ops h wb hroot]
      · simp [wb_ref_call.run, wb_get_root ops h wb hroot]
      · simp [wb_ref_call.run, wb_put_root ops h wb hroot]
    show List.foldl (wb_ref_call.run ops wb) (wb_ref_call.run ops wb h c) cs = h
    rw [hc]
    exact ih

/-- C1: on the root context of a device (`wb == &wb->bdi->wb`), `wb_tryget`
returns true, and `wb_tryget`, `wb_get` and `wb_put` leave the whole heap,
hence the reference count and every other field of the context and of the
device, unchanged; this holds for every implementation of `percpu_ref`. -/
theorem root_wb_ref_helpers_are_noops {R : Type} (ops : percpu_ref_ops R)
    (h : Heap R) (wb : WbPtr) (hroot : wb_is_root h wb = true) :
    (wb_tryget ops h wb).1 = true ∧ (wb_tryget ops h wb).2 = h ∧
      wb_get ops h wb = h ∧ (wb_put ops h wb).heap = h ∧
      (wb_put ops h wb).warned = false ∧ (wb_put ops h wb).rejected = false := by
  rw [wb_tryget_root ops h wb hroot, wb_get_root ops h wb hroot,
    wb_put_root ops h wb hroot]
  exact ⟨rfl, rfl, rfl, rfl, rfl, rfl⟩

theorem root_wb_ref_helpers_are_noops_witness :
    wb_is_root sample_heap (WbPtr.root 3) = true ∧
      (wb_tryget spec_ref_ops sample_heap (WbPtr.root 3)).1 = true ∧
      (wb_tryget spec_ref_ops sample_heap (WbPtr.root 3)).2 = sample_heap ∧
      wb_get spec_ref_ops sample_heap (WbPtr.root 3) = sample_heap ∧
      (wb_put spec_ref_ops sample_heap (WbPtr.root 3)).heap = sample_heap ∧
      (wb_put spec_ref_ops sample_heap (WbPtr.root 3)).warned = false ∧
      (wb_put spec_ref_ops sample_heap (WbPtr.root 3)).rejected = false :=
  ⟨by decide,
    root_wb_ref_helpers_are_noops spec_ref_ops sample_heap (WbPtr.root 3) (by decide)⟩

/-! ### Completions -/

/-- C2: for every device, the completion of `WB_COMPLETION_INIT(bdi)`, which
is also the one `DEFINE_WB_COMPLETION` declares, has count exactly 1 and
waits on exactly that device's wait channel `&bdi->wb_waitq`, the channel of
no other device. -/
theorem wb_completion_init_count_and_waitq (bdi : BdiPtr) :
    (WB_COMPLETION_INIT bdi).cnt.counter = 1 ∧
      (WB_COMPLETION_INIT bdi).waitq = WaitqPtr.wb_waitq bdi ∧
      DEFINE_WB_COMPLETION bdi = WB_COMPLETION_INIT bdi ∧
      ∀ other : BdiPtr,
        (WB_COMPLETION_INIT bdi).waitq = (WB_COMPLETION_INIT other).waitq ↔ bdi = other := by
  refine ⟨rfl, rfl, rfl, fun other => ?_⟩
  simp [WB_COMPLETION_INIT, __WB_COMPLETION_INIT]

theorem completion_enqueue_n_counter (k : Nat) (c : wb_completion) :
    (completion_enqueue_n k c).cnt.counter = c.cnt.counter + k := by
  induction k generalizing c with
  | zero => simp [completion_enqueue_n]
  | succ k ih =>
    rw [completion_enqueue_n, ih]
    simp only [completion_enqueue]
    push_cast
    ring

theorem completion_decrement_n_counter (j : Nat) (c : wb_completion) :
    (completion_decrement_n j c).2.cnt.counter = c.cnt.counter - j := by
  induction j generalizing c with
  | zero => simp [completion_decrement_n]
  | succ j ih =>
    rw [completion_decrement_n]
    simp only [ih, completion_decrement]
    push_cast
    ring

theorem completion_decrement_n_wakeups (j : Nat) (c : wb_completion) :
    (completion_decrement_n j c).1 =
      if 0 < c.cnt.counter ∧ c.cnt.counter ≤ j then 1 else 0 := by
  induction j generalizing c with
  | zero =>
    simp only [completion_decrement_n]
    split_ifs with hc
    · exfalso
      have := hc.2
      simp at this
      omega
    · rfl
  | succ j ih =>
    rw [completion_decrement_n]
    have hstep : (completion_decrement c).2.cnt.counter = c.cnt.counter - 1 := rfl
    have hwake : (completion_decrement c).1 = decide (c.cnt.counter - 1 = 0) := rfl
    simp only [ih, hstep, hwake]
    have hcast : ((j + 1 : Nat) : Int) = (j : Int) + 1 := by push_cast; ring
    rw [hcast]
    by_cases h1 : c.cnt.counter - 1 = 0
    · have h2 : c.cnt.counter = 1 := by omega
      simp only [h2]
      norm_num
    · have hd : decide (c.cnt.counter - 1 = 0) = false := decide_eq_false h1
      rw [hd]
      simp only [Bool.false_eq_true, if_false, zero_add]
      split_ifs <;> omega

/-- C5: a completion initialised by `WB_COMPLETION_INIT` and shared by `K`
enqueued work items, after `j` decrements, has count `K + 1 - j`: the count
is strictly positive exactly while `j ≤ K`, it is zero exactly at the
`(K+1)`-th decrement, and the waiters have been woken once if `K + 1 ≤ j`
and not at all before. -/
theorem completion_released_at_last_decrement (bdi : BdiPtr) (K j : Nat) :
    (completion_decrement_n j
        (completion_enqueue_n K (WB_COMPLETION_INIT bdi))).2.cnt.counter
        = (K : Int) + 1 - (j : Int) ∧
      (completion_decrement_n j (completion_enqueue_n K (WB_COMPLETION_INIT bdi))).1
        = (if K + 1 ≤ j then 1 else 0) ∧
      (0 < (completion_decrement_n j
        (completion_enqueue_n K (WB_COMPLETION_INIT bdi))).2.cnt.counter ↔ j ≤ K) ∧
      ((completion_decrement_n j
        (completion_enqueue_n K (WB_COMPLETION_INIT bdi))).2.cnt.counter = 0 ↔ j = K + 1) := by
  have h0 : (WB_COMPLETION_INIT bdi).cnt.counter = 1 := rfl
  have hc : (completion_enqueue_n K (WB_COMPLETION_INIT bdi)).cnt.counter = (K : Int) + 1 := by
    rw [completion_enqueue_n_counter, h0]; ring
  rw [completion_decrement_n_counter, completion_decrement_n_wakeups, hc]
  refine ⟨by ring, ?_, ?_, ?_⟩
  · split_ifs <;> omega
  · omega
  · omega

/-! ### The reference helpers on tenant contexts -/

/-- C3: on a context that is not the root of its device and is already
dying, `wb_tryget` returns false and leaves the heap, hence the reference
count, unchanged. -/
theorem wb_tryget_fails_on_dying (h : Heap percpu_ref) (wb : WbPtr)
    (hnonroot : wb_is_root h wb = false) (hdying : wb_dying spec_ref_ops h wb = true) :
    (wb_tryget spec_ref_ops h wb).1 = false ∧ (wb_tryget spec_ref_ops h wb).2 = h ∧
      ((wb_tryget spec_ref_ops h wb).2.wb wb).refcnt.count = (h.wb wb).refcnt.count := by
  have hd : (h.wb wb).refcnt.dying = true := hdying
  have ht : wb_tryget spec_ref_ops h wb = (false, h) := by
    simp only [wb_tryget, hnonroot, if_true, spec_ref_ops, percpu_ref_tryget, hd]
    exact congrArg (Prod.mk false) (Heap.set_wb_self h wb)
  rw [ht]
  exact ⟨rfl, rfl, rfl⟩

theorem wb_tryget_fails_on_dying_witness :
    wb_is_root sample_heap (WbPtr.cgwb 1) = false ∧
      wb_dying spec_ref_ops sample_heap (WbPtr.cgwb 1) = true ∧
      (wb_tryget spec_ref_ops sample_heap (WbPtr.cgwb 1)).1 = false ∧
      (wb_tryget spec_ref_ops sample_heap (WbPtr.cgwb 1)).2 = sample_heap :=
  ⟨by decide, by decide,
    (wb_tryget_fails_on_dying sample_heap (WbPtr.cgwb 1) (by decide) (by decide)).1,
    (wb_tryget_fails_on_dying sample_heap (WbPtr.cgwb 1) (by decide) (by decide)).2.1⟩

/-- C4: on a context with no owning device link (`wb->bdi` null) `wb_put`
reports the violation (the condition of `WARN_ON_ONCE` is true) and returns
with the heap unchanged, without a call of `percpu_ref_put`; on a context
with a device link the condition of the warning is false. -/
theorem wb_put_warns_exactly_without_bdi {R : Type} (ops : percpu_ref_ops R)
    (h : Heap R) (wb : WbPtr) :
    ((h.wb wb).bdi = none →
        (wb_put ops h wb).warned = true ∧ (wb_put ops h wb).rejected = false ∧
          (wb_put ops h wb).heap = h) ∧
      ((h.wb wb).bdi ≠ none → (wb_put ops h wb).warned = false) := by
  constructor
  · intro hb
    simp [wb_put, WARN_ON_ONCE, hb]
  · intro hb
    cases hbdi : (h.wb wb).bdi with
    | none => exact absurd hbdi hb
    | some b =>
      by_cases hr : wb_is_root h wb = false <;> simp [wb_put, WARN_ON_ONCE, hbdi, hr]

theorem wb_put_warns_exactly_without_bdi_witness :
    ((sample_heap.wb (WbPtr.cgwb 7)).bdi = none ∧
        (wb_put spec_ref_ops sample_heap (WbPtr.cgwb 7)).warned = true ∧
        (wb_put spec_ref_ops sample_heap (WbPtr.cgwb 7)).heap = sample_heap) ∧
      ((sample_heap.wb (WbPtr.cgwb 0)).bdi ≠ none ∧
        (wb_put spec_ref_ops sample_heap (WbPtr.cgwb 0)).warned = false) :=
  ⟨⟨by decide,
      ((wb_put_warns_exactly_without_bdi spec_ref_ops sample_heap (WbPtr.cgwb 7)).1
        (by decide)).1,
      ((wb_put_warns_exactly_without_bdi spec_ref_ops sample_heap (WbPtr.cgwb 7)).1
        (by decide)).2.2⟩,
    ⟨by decide,
      (wb_put_warns_exactly_without_bdi spec_ref_ops sample_heap (WbPtr.cgwb 0)).2
        (by decide)⟩⟩

/-- C7: on a context that is not the root of its device and whose reference
count is already zero, `wb_put` is rejected or asserted (the put is refused,
or the missing device link is reported) and leaves the heap, hence the
count, unchanged: the count is not taken past zero. -/
theorem wb_put_past_zero_is_rejected (h : Heap percpu_ref) (wb : WbPtr)
    (hnonroot : wb_is_root h wb = false) (hzero : (h.wb wb).refcnt.count = 0) :
    ((wb_put spec_ref_ops h wb).warned = true ∨
        (wb_put spec_ref_ops h wb).rejected = true) ∧
      (wb_put spec_ref_ops h wb).heap = h ∧
      ((wb_put spec_ref_ops h wb).heap.wb wb).refcnt.count = 0 := by
  by_cases hb : (h.wb wb).bdi.isNone = true
  · have hp : wb_put spec_ref_ops h wb = { warned := true, rejected := false, heap := h } := by
      simp only [wb_put, WARN_ON_ONCE, hb, if_true]
    rw [hp]
    exact ⟨Or.inl rfl, rfl, hzero⟩
  · have hb1 : (h.wb wb).bdi.isNone = false := Bool.eq_false_iff.2 hb
    have hp : wb_put spec_ref_ops h wb = { warned := false, rejected := true, heap := h } := by
      simp only [wb_put, WARN_ON_ONCE, hb1, hnonroot, if_true, spec_ref_ops, percpu_ref_put,
        hzero, Bool.false_eq_true, if_false]
      exact congrArg (wb_put_result.mk false true) (Heap.set_wb_self h wb)
    rw [hp]
    exact ⟨Or.inr rfl, rfl, hzero⟩

theorem wb_put_past_zero_is_rejected_witness :
    wb_is_root sample_heap (WbPtr.cgwb 1) = false ∧
      (sample_heap.wb (WbPtr.cgwb 1)).refcnt.count = 0 ∧
      (wb_put spec_ref_ops sample_heap (WbPtr.cgwb 1)).rejected = true ∧
      (wb_put spec_ref_ops sample_heap (WbPtr.cgwb 1)).heap = sample_heap :=
  ⟨by decide, by decide, by decide,
    (wb_put_past_zero_is_rejected sample_heap (WbPtr.cgwb 1) (by decide) (by decide)).2.1⟩

/-- C8: the root context of a device stays Active: from a heap in which the
root context is not dying, after every sequence of `wb_get`, `wb_put` and
`wb_tryget` calls on it `wb_dying` is still false, for every implementation
of `percpu_ref`; and without cgroup writeback `wb_dying` is false for every
context. -/
theorem root_wb_never_dying {R : Type} (ops : percpu_ref_ops R) (h : Heap R) (wb : WbPtr)
    (hroot : wb_is_root h wb = true) (hactive : wb_dying ops h wb = false)
    (calls : List wb_ref_call) :
    wb_dying ops (run_ref_calls ops wb h calls) wb = false ∧
      wb_is_root (run_ref_calls ops wb h calls) wb = true ∧
      ∀ (h1 : Heap R) (wb1 : WbPtr), NoCgroup.wb_dying h1 wb1 = false := by
  rw [run_ref_calls_root ops h wb hroot calls]
  exact ⟨hactive, hroot, fun _ _ => rfl⟩

theorem root_wb_never_dying_witness :
    wb_is_root sample_heap (WbPtr.root 0) = true ∧
      wb_dying spec_ref_ops sample_heap (WbPtr.root 0) = false ∧
      wb_dying spec_ref_ops
        (run_ref_calls spec_ref_ops (WbPtr.root 0) sample_heap
          [wb_ref_call.put, wb_ref_call.put, wb_ref_call.tryget, wb_ref_call.get,
            wb_ref_call.put]) (WbPtr.root 0) = false :=
  ⟨by decide, by decide,
    (root_wb_never_dying spec_ref_ops sample_heap (WbPtr.root 0) (by decide) (by decide)
      [wb_ref_call.put, wb_ref_call.put, wb_ref_call.tryget, wb_ref_call.get,
        wb_ref_call.put]).1⟩

/-! ### Bit operations -/

theorem test_bit_set_bit_self (nr word : Nat) : test_bit nr (set_bit nr word) = true := by
  simp [test_bit, set_bit, Nat.testBit_or, Nat.one_shiftLeft, Nat.testBit_two_pow_self]

theorem test_bit_set_bit_of_ne (nr m word : Nat) (hm : m ≠ nr) :
    test_bit m (set_bit nr word) = test_bit m word := by
  simp [test_bit, set_bit, Nat.testBit_or, Nat.one_shiftLeft, Nat.testBit_two_pow, hm.symm]

theorem test_bit_clear_bit_self (nr word : Nat) : test_bit nr (clear_bit nr word) = false := by
  simp [test_bit, clear_bit, Nat.testBit_xor, Nat.testBit_and, Nat.one_shiftLeft,
    Nat.testBit_two_pow_self]

theorem test_bit_clear_bit_of_ne (nr m word : Nat) (hm : m ≠ nr) :
    test_bit m (clear_bit nr word) = test_bit m word := by
  simp [test_bit, clear_bit, Nat.testBit_xor, Nat.testBit_and, Nat.one_shiftLeft,
    Nat.testBit_two_pow, hm.symm]

theorem set_bit_idem (nr word : Nat) : set_bit nr (set_bit nr word) = set_bit nr word := by
  apply Nat.eq_of_testBit_eq
  intro i
  simp [set_bit, Nat.testBit_or]

theorem clear_bit_idem (nr word : Nat) :
    clear_bit nr (clear_bit nr word) = clear_bit nr word := by
  apply Nat.eq_of_testBit_eq
  intro i
  simp only [clear_bit, Nat.testBit_xor, Nat.testBit_and]
  cases word.testBit i <;> cases (1 <<< nr).testBit i <;> rfl

/-! ### Aggregate bandwidth -/

theorem Heap.wb_set_wb {R : Type} (h : Heap R) (p q : WbPtr) (w : bdi_writeback R) :
    (h.set_wb p w).wb q = if q = p then w else h.wb q := by
  cases p with
  | root b0 =>
    cases q with
    | root b1 =>
      by_cases hb : b1 = b0
      · subst hb; simp [Heap.set_wb, Heap.wb]
      · simp [Heap.set_wb, Heap.wb, Function.update_apply, hb]
    | cgwb k1 => simp [Heap.set_wb, Heap.wb]
  | cgwb k0 =>
    cases q with
    | root b1 => simp [Heap.set_wb, Heap.wb]
    | cgwb k1 =>
      by_cases hk : k1 = k0
      · subst hk; simp [Heap.set_wb, Heap.wb]
      · simp [Heap.set_wb, Heap.wb, Function.update_apply, hk]

theorem Heap.wb_list_set_wb {R : Type} (h : Heap R) (p : WbPtr) (w : bdi_writeback R)
    (b : BdiPtr) : ((h.set_wb p w).bdis b).wb_list = (h.bdis b).wb_list := by
  cases p with
  | root b0 =>
    by_cases hb : b = b0
    · subst hb; simp [Heap.set_wb]
    · simp [Heap.set_wb, Function.update_apply, hb]
  | cgwb k0 => rfl

theorem Heap.tot_set_wb {R : Type} (h : Heap R) (p : WbPtr) (w : bdi_writeback R)
    (b : BdiPtr) :
    ((h.set_wb p w).bdis b).tot_write_bandwidth = (h.bdis b).tot_write_bandwidth := by
  cases p with
  | root b0 =>
    by_cases hb : b = b0
    · subst hb; simp [Heap.set_wb]
    · simp [Heap.set_wb, Function.update_apply, hb]
  | cgwb k0 => rfl

theorem Heap.wb_add_tot {R : Type} (h : Heap R) (b0 : BdiPtr) (d : Int) (q : WbPtr) :
    (h.add_tot_write_bandwidth b0 d).wb q = h.wb q := by
  cases q with
  | root b1 =>
    by_cases hb : b1 = b0
    · subst hb; simp [Heap.add_tot_write_bandwidth, Heap.wb]
    · simp [Heap.add_tot_write_bandwidth, Heap.wb, Function.update_apply, hb]
  | cgwb k1 => rfl

theorem Heap.wb_list_add_tot {R : Type} (h : Heap R) (b0 : BdiPtr) (d : Int) (b : BdiPtr) :
    ((h.add_tot_write_bandwidth b0 d).bdis b).wb_list = (h.bdis b).wb_list := by
  by_cases hb : b = b0
  · subst hb; simp [Heap.add_tot_write_bandwidth]
  · simp [Heap.add_tot_write_bandwidth, Function.update_apply, hb]

theorem Heap.tot_add_tot {R : Type} (h : Heap R) (b0 : BdiPtr) (d : Int) (b : BdiPtr) :
    ((h.add_tot_write_bandwidth b0 d).bdis b).tot_write_bandwidth =
      (h.bdis b).tot_write_bandwidth + (if b = b0 then d else 0) := by
  by_cases hb : b = b0
  · subst hb; simp [Heap.add_tot_write_bandwidth]
  · simp [Heap.add_tot_write_bandwidth, Function.update_apply, hb]

theorem dirty_bandwidth_sum_eq {R : Type} (h : Heap R) (b : BdiPtr) :
    dirty_bandwidth_sum h b =
      ((h.bdis b).wb_list.map (fun p => dirty_contribution (h.wb p))).sum := by
  unfold dirty_bandwidth_sum
  induction (h.bdis b).wb_list with
  | nil => rfl
  | cons p l ih =>
    by_cases hp : wb_has_dirty_io (h.wb p) = true
    · simp [List.filter_cons, hp, dirty_contribution, ih]
    · simp [List.filter_cons, hp, dirty_contribution, ih]

theorem sum_map_change_at {α : Type} (f g : α → Int) (p : α) (l : List α)
    (hnodup : l.Nodup) (hp : p ∈ l) (hsame : ∀ q, q ≠ p → g q = f q) :
    (l.map g).sum = (l.map f).sum + (g p - f p) := by
  induction l with
  | nil => simp at hp
  | cons a l ih =>
    have hnd := List.nodup_cons.1 hnodup
    by_cases ha : a = p
    · subst ha
      have hrest : l.map g = l.map f :=
        List.map_congr_left (fun q hq => hsame q (fun hqa => hnd.1 (hqa ▸ hq)))
      simp only [List.map_cons, List.sum_cons, hrest]
      ring
    · have hpl : p ∈ l := by
        rcases List.mem_cons.1 hp with hpa | hpl
        · exact absurd hpa.symm ha
        · exact hpl
      simp only [List.map_cons, List.sum_cons, ih hnd.2 hpl, hsame a ha]
      ring

theorem dirty_bandwidth_sum_step {R : Type} (h h1 : Heap R) (p : WbPtr) (b : BdiPtr)
    (hok : wb_list_ok h b) (hframe : ∀ q, q ≠ p → h1.wb q = h.wb q)
    (hlist : (h1.bdis b).wb_list = (h.bdis b).wb_list) :
    dirty_bandwidth_sum h1 b = dirty_bandwidth_sum h b +
      (if (h.wb p).bdi = some b then
        dirty_contribution (h1.wb p) - dirty_contribution (h.wb p) else 0) := by
  rw [dirty_bandwidth_sum_eq, dirty_bandwidth_sum_eq, hlist]
  by_cases hp : (h.wb p).bdi = some b
  · rw [if_pos hp]
    exact sum_map_change_at _ _ p _ hok.1 ((hok.2 p).2 hp)
      (fun q hq => by simp only [hframe q hq])
  · rw [if_neg hp, add_zero]
    have hnot : p ∉ (h.bdis b).wb_list := fun hmem => hp ((hok.2 p).1 hmem)
    exact congrArg List.sum
      (List.map_congr_left (fun q hq => by
        have hqp : q ≠ p := fun hqp => hnot (hqp ▸ hq)
        simp only [hframe q hqp]))

theorem wb_list_ok_step {R : Type} (h h1 : Heap R) (b : BdiPtr) (hok : wb_list_ok h b)
    (hbdi : ∀ q, (h1.wb q).bdi = (h.wb q).bdi)
    (hlist : (h1.bdis b).wb_list = (h.bdis b).wb_list) : wb_list_ok h1 b := by
  unfold wb_list_ok
  rw [hlist]
  exact ⟨hok.1, fun q => by rw [hbdi q]; exact hok.2 q⟩

theorem wb_update_avg_write_bandwidth_keeps {R : Type} (h : Heap R) (p : WbPtr) (n : Nat)
    (b : BdiPtr) (hok : wb_list_ok h b)
    (hsum : (h.bdis b).tot_write_bandwidth = dirty_bandwidth_sum h b) :
    wb_list_ok (wb_update_avg_write_bandwidth h p n) b ∧
      ((wb_update_avg_write_bandwidth h p n).bdis b).tot_write_bandwidth =
        dirty_bandwidth_sum (wb_update_avg_write_bandwidth h p n) b := by
  unfold wb_update_avg_write_bandwidth
  cases hb : (h.wb p).bdi with
  | none => exact ⟨hok, hsum⟩
  | some b0 =>
    by_cases hd : wb_has_dirty_io (h.wb p) = true
    · simp only [hd, if_true]
      refine ⟨wb_list_ok_step h _ b hok ?_ ?_, ?_⟩
      · intro q
        by_cases hq : q = p <;> simp [Heap.wb_set_wb, Heap.wb_add_tot, hq]
      · simp [Heap.wb_list_set_wb, Heap.wb_list_add_tot]
      · rw [dirty_bandwidth_sum_step h _ p b hok
          (fun q hq => by simp [Heap.wb_set_wb, Heap.wb_add_tot, hq])
          (by simp [Heap.wb_list_set_wb, Heap.wb_list_add_tot])]
        have hd1 : test_bit WB_has_dirty_io (h.wb p).state = true := hd
        by_cases hbb : b = b0
        · subst hbb
          simp [Heap.tot_set_wb, Heap.tot_add_tot, Heap.wb_set_wb, Heap.wb_add_tot, hsum, hb,
            dirty_contribution, wb_has_dirty_io, hd1]
        · have hbb1 : ¬ b0 = b := fun e => hbb e.symm
          simp [Heap.tot_set_wb, Heap.tot_add_tot, hsum, hb, hbb, hbb1]
    · have hd0 : wb_has_dirty_io (h.wb p) = false := Bool.eq_false_iff.2 hd
      have hd1 : test_bit WB_has_dirty_io (h.wb p).state = false := hd0
      simp only [hd0, Bool.false_eq_true, if_false]
      refine ⟨wb_list_ok_step h _ b hok ?_ ?_, ?_⟩
      · intro q
        by_cases hq : q = p <;> simp [Heap.wb_set_wb, hq]
      · simp [Heap.wb_list_set_wb]
      · rw [dirty_bandwidth_sum_step h _ p b hok
          (fun q hq => by simp [Heap.wb_set_wb, hq])
          (by simp [Heap.wb_list_set_wb])]
        simp [Heap.tot_set_wb, Heap.wb_set_wb, hsum, dirty_contribution, wb_has_dirty_io, hd1]

theorem wb_set_has_dirty_io_keeps {R : Type} (h : Heap R) (p : WbPtr)
    (b : BdiPtr) (hok : wb_list_ok h b)
    (hsum : (h.bdis b).tot_write_bandwidth = dirty_bandwidth_sum h b) :
    wb_list_ok (wb_set_has_dirty_io h p) b ∧
      ((wb_set_has_dirty_io h p).bdis b).tot_write_bandwidth =
        dirty_bandwidth_sum (wb_set_has_dirty_io h p) b := by
  unfold wb_set_has_dirty_io
  cases hb : (h.wb p).bdi with
  | none => exact ⟨hok, hsum⟩
  | some b0 =>
    by_cases hd : wb_has_dirty_io (h.wb p) = true
    · simp only [hd, if_true]
      exact ⟨hok, hsum⟩
    · have hd0 : wb_has_dirty_io (h.wb p) = false := Bool.eq_false_iff.2 hd
      have hd1 : test_bit WB_has_dirty_io (h.wb p).state = false := hd0
      simp only [hd0, Bool.false_eq_true, if_false]
      refine ⟨wb_list_ok_step h _ b hok ?_ ?_, ?_⟩
      · intro q
        by_cases hq : q = p <;> simp [Heap.wb_set_wb, Heap.wb_add_tot, hq]
      · simp [Heap.wb_list_set_wb, Heap.wb_list_add_tot]
      · rw [dirty_bandwidth_sum_step h _ p b hok
          (fun q hq => by simp [Heap.wb_set_wb, Heap.wb_add_tot, hq])
          (by simp [Heap.wb_list_set_wb, Heap.wb_list_add_tot])]
        by_cases hbb : b = b0
        · subst hbb
          simp [Heap.tot_set_wb, Heap.tot_add_tot, Heap.wb_set_wb, Heap.wb_add_tot, hsum, hb,
            dirty_contribution, wb_has_dirty_io, hd1, test_bit_set_bit_self]
        · have hbb1 : ¬ b0 = b := fun e => hbb e.symm
          simp [Heap.tot_set_wb, Heap.tot_add_tot, hsum, hb, hbb, hbb1]

theorem wb_clear_has_dirty_io_keeps {R : Type} (h : Heap R) (p : WbPtr)
    (b : BdiPtr) (hok : wb_list_ok h b)
    (hsum : (h.bdis b).tot_write_bandwidth = dirty_bandwidth_sum h b) :
    wb_list_ok (wb_clear_has_dirty_io h p) b ∧
      ((wb_clear_has_dirty_io h p).bdis b).tot_write_bandwidth =
        dirty_bandwidth_sum (wb_clear_has_dirty_io h p) b := by
  unfold wb_clear_has_dirty_io
  cases hb : (h.wb p).bdi with
  | none => exact ⟨hok, hsum⟩
  | some b0 =>
    by_cases hd : wb_has_dirty_io (h.wb p) = true
    · have hd1 : test_bit WB_has_dirty_io (h.wb p).state = true := hd
      simp only [hd, if_true]
      refine ⟨wb_list_ok_step h _ b hok ?_ ?_, ?_⟩
      · intro q
        by_cases hq : q = p <;> simp [Heap.wb_set_wb, Heap.wb_add_tot, hq]
      · simp [Heap.wb_list_set_wb, Heap.wb_list_add_tot]
      · rw [dirty_bandwidth_sum_step h _ p b hok
          (fun q hq => by simp [Heap.wb_set_wb, Heap.wb_add_tot, hq])
          (by simp [Heap.wb_list_set_wb, Heap.wb_list_add_tot])]
        by_cases hbb : b = b0
        · subst hbb
          simp [Heap.tot_set_wb, Heap.tot_add_tot, Heap.wb_set_wb, Heap.wb_add_tot, hsum, hb,
            dirty_contribution, wb_has_dirty_io, hd1, test_bit_clear_bit_self]
        · have hbb1 : ¬ b0 = b := fun e => hbb e.symm
          simp [Heap.tot_set_wb, Heap.tot_add_tot, hsum, hb, hbb, hbb1]
    · have hd0 : wb_has_dirty_io (h.wb p) = false := Bool.eq_false_iff.2 hd
      simp only [hd0, Bool.false_eq_true, if_false]
      exact ⟨hok, hsum⟩

theorem run_bw_events_keeps {R : Type} (b : BdiPtr) (events : List bw_event) (h : Heap R)
    (hok : wb_list_ok h b)
    (hsum : (h.bdis b).tot_write_bandwidth = dirty_bandwidth_sum h b) :
    wb_list_ok (run_bw_events h events) b ∧
      ((run_bw_events h events).bdis b).tot_write_bandwidth =
        dirty_bandwidth_sum (run_bw_events h events) b := by
  induction events generalizing h with
  | nil => exact ⟨hok, hsum⟩
  | cons e es ih =>
    have hstep : wb_list_ok (bw_event.run h e) b ∧
        ((bw_event.run h e).bdis b).tot_write_bandwidth =
          dirty_bandwidth_sum (bw_event.run h e) b := by
      cases e with
      | update wb new_avg => exact wb_update_avg_write_bandwidth_keeps h wb new_avg b hok hsum
      | set_dirty wb => exact wb_set_has_dirty_io_keeps h wb b hok hsum
      | clear_dirty wb => exact wb_clear_has_dirty_io_keeps h wb b hok hsum
    exact ih (bw_event.run h e) hstep.1 hstep.2

/-- C6: on a device whose `wb_list` holds exactly its contexts and whose
aggregate `tot_write_bandwidth` equals the sum of `avg_write_bandwidth` over
its contexts with the `WB_has_dirty_io` bit set, the same equality holds
after every sequence of bandwidth updates and has-dirty-io flag changes, on
contexts of this or of any other device. -/
theorem tot_write_bandwidth_is_dirty_sum {R : Type} (h : Heap R) (bdi : BdiPtr)
    (hok : wb_list_ok h bdi)
    (hsum : (h.bdis bdi).tot_write_bandwidth = dirty_bandwidth_sum h bdi)
    (events : List bw_event) :
    ((run_bw_events h events).bdis bdi).tot_write_bandwidth =
      dirty_bandwidth_sum (run_bw_events h events) bdi :=
  (run_bw_events_keeps bdi events h hok hsum).2

theorem sample_heap_wb_list_ok : wb_list_ok sample_heap 0 := by
  refine ⟨by decide, fun p => ?_⟩
  cases p with
  | root b => simp [sample_heap, Heap.wb, zero_wb]
  | cgwb k =>
    by_cases h0 : k = 0
    · subst h0; simp [sample_heap, Heap.wb, zero_wb]
    · by_cases h1 : k = 1
      · subst h1; simp [sample_heap, Heap.wb, zero_wb]
      · simp [sample_heap, Heap.wb, zero_wb, h0, h1]

theorem tot_write_bandwidth_is_dirty_sum_witness :
    wb_list_ok sample_heap 0 ∧
      (sample_heap.bdis 0).tot_write_bandwidth = dirty_bandwidth_sum sample_heap 0 ∧
      ((run_bw_events sample_heap
          [bw_event.update (WbPtr.cgwb 0) 300, bw_event.set_dirty (WbPtr.cgwb 0),
            bw_event.set_dirty (WbPtr.root 0), bw_event.update (WbPtr.root 0) 50,
            bw_event.update (WbPtr.cgwb 0) 1000, bw_event.set_dirty (WbPtr.cgwb 1),
            bw_event.clear_dirty (WbPtr.root 0)]).bdis 0).tot_write_bandwidth =
        dirty_bandwidth_sum (run_bw_events sample_heap
          [bw_event.update (WbPtr.cgwb 0) 300, bw_event.set_dirty (WbPtr.cgwb 0),
            bw_event.set_dirty (WbPtr.root 0), bw_event.update (WbPtr.root 0) 50,
            bw_event.update (WbPtr.cgwb 0) 1000, bw_event.set_dirty (WbPtr.cgwb 1),
            bw_event.clear_dirty (WbPtr.root 0)]) 0 :=
  ⟨sample_heap_wb_list_ok, by decide,
    tot_write_bandwidth_is_dirty_sum sample_heap 0 sample_heap_wb_list_ok (by decide) _⟩

/-! ### Congestion -/

theorem set_wb_congested_idem {R : Type} (h : Heap R) (b : BdiPtr) (f : Nat → Nat)
    (hf : ∀ c, f (f c) = f c) :
    (h.set_wb (WbPtr.root b)
        { h.wb (WbPtr.root b) with congested := f (h.wb (WbPtr.root b)).congested }).set_wb
      (WbPtr.root b)
        { (h.set_wb (WbPtr.root b)
            { h.wb (WbPtr.root b) with
              congested := f (h.wb (WbPtr.root b)).congested }).wb (WbPtr.root b) with
          congested := f ((h.set_wb (WbPtr.root b)
            { h.wb (WbPtr.root b) with
              congested := f (h.wb (WbPtr.root b)).congested }).wb (WbPtr.root b)).congested }
      = h.set_wb (WbPtr.root b)
        { h.wb (WbPtr.root b) with congested := f (h.wb (WbPtr.root b)).congested } := by
  have hw : (h.set_wb (WbPtr.root b)
      { h.wb (WbPtr.root b) with congested := f (h.wb (WbPtr.root b)).congested }).wb
        (WbPtr.root b)
      = { h.wb (WbPtr.root b) with congested := f (h.wb (WbPtr.root b)).congested } := by
    simp [Heap.wb_set_wb]
  have hfix : ({ (h.set_wb (WbPtr.root b)
            { h.wb (WbPtr.root b) with
              congested := f (h.wb (WbPtr.root b)).congested }).wb (WbPtr.root b) with
          congested := f ((h.set_wb (WbPtr.root b)
            { h.wb (WbPtr.root b) with
              congested := f (h.wb (WbPtr.root b)).congested }).wb (WbPtr.root b)).congested }
        : bdi_writeback R)
      = (h.set_wb (WbPtr.root b)
          { h.wb (WbPtr.root b) with
            congested := f (h.wb (WbPtr.root b)).congested }).wb (WbPtr.root b) := by
    rw [hw]
    simp [hf]
  rw [hfix, Heap.set_wb_self]

theorem bdi_congested_word_set_wb {R : Type} (h : Heap R) (b : BdiPtr) (c : Nat) :
    bdi_congested_word
      (h.set_wb (WbPtr.root b) { h.wb (WbPtr.root b) with congested := c }) b = c := by
  simp [bdi_congested_word, Heap.wb_set_wb]

/-- C9: on the congestion word of a device, for each of the channels
`BLK_RW_ASYNC` and `BLK_RW_SYNC`, `set_bdi_congested` applied twice leaves
the same heap as applied once, with the channel's bit (`WB_async_congested`,
respectively `WB_sync_congested`) set and the bit of the other channel as it
was; and `clear_bdi_congested` applied twice leaves the same heap as applied
once, with the channel's bit cleared and the bit of the other channel as it
was. -/
theorem bdi_congested_set_clear_idempotent {R : Type} (h : Heap R) (bdi : BdiPtr) :
    (set_bdi_congested (set_bdi_congested h bdi BLK_RW_ASYNC) bdi BLK_RW_ASYNC
        = set_bdi_congested h bdi BLK_RW_ASYNC ∧
      test_bit WB_async_congested
        (bdi_congested_word (set_bdi_congested h bdi BLK_RW_ASYNC) bdi) = true ∧
      test_bit WB_sync_congested
        (bdi_congested_word (set_bdi_congested h bdi BLK_RW_ASYNC) bdi)
        = test_bit WB_sync_congested (bdi_congested_word h bdi)) ∧
    (set_bdi_congested (set_bdi_congested h bdi BLK_RW_SYNC) bdi BLK_RW_SYNC
        = set_bdi_congested h bdi BLK_RW_SYNC ∧
      test_bit WB_sync_congested
        (bdi_congested_word (set_bdi_congested h bdi BLK_RW_SYNC) bdi) = true ∧
      test_bit WB_async_congested
        (bdi_congested_word (set_bdi_congested h bdi BLK_RW_SYNC) bdi)
        = test_bit WB_async_congested (bdi_congested_word h bdi)) ∧
    (clear_bdi_congested (clear_bdi_congested h bdi BLK_RW_ASYNC) bdi BLK_RW_ASYNC
        = clear_bdi_congested h bdi BLK_RW_ASYNC ∧
      test_bit WB_async_congested
        (bdi_congested_word (clear_bdi_congested h bdi BLK_RW_ASYNC) bdi) = false ∧
      test_bit WB_sync_congested
        (bdi_congested_word (clear_bdi_congested h bdi BLK_RW_ASYNC) bdi)
        = test_bit WB_sync_congested (bdi_congested_word h bdi)) ∧
    (clear_bdi_congested (clear_bdi_congested h bdi BLK_RW_SYNC) bdi BLK_RW_SYNC
        = clear_bdi_congested h bdi BLK_RW_SYNC ∧
      test_bit WB_sync_congested
        (bdi_congested_word (clear_bdi_congested h bdi BLK_RW_SYNC) bdi) = false ∧
      test_bit WB_async_congested
        (bdi_congested_word (clear_bdi_congested h bdi BLK_RW_SYNC) bdi)
        = test_bit WB_async_congested (bdi_congested_word h bdi)) := by
  have hne : WB_sync_congested ≠ WB_async_congested := by decide
  have ha : (if BLK_RW_ASYNC ≠ 0 then WB_sync_congested else WB_async_congested)
      = WB_async_congested := by decide
  have hs : (if BLK_RW_SYNC ≠ 0 then WB_sync_congested else WB_async_congested)
      = WB_sync_congested := by decide
  refine ⟨⟨?_, ?_, ?_⟩, ⟨?_, ?_, ?_⟩, ⟨?_, ?_, ?_⟩, ⟨?_, ?_, ?_⟩⟩
  · simp only [set_bdi_congested, ha]
    exact set_wb_congested_idem h bdi _ (set_bit_idem WB_async_congested)
  · simp only [set_bdi_congested, ha, bdi_congested_word_set_wb]
    exact test_bit_set_bit_self _ _
  · simp only [set_bdi_congested, ha, bdi_congested_word_set_wb]
    exact test_bit_set_bit_of_ne _ _ _ hne
  · simp only [set_bdi_congested, hs]
    exact set_wb_congested_idem h bdi _ (set_bit_idem WB_sync_congested)
  · simp only [set_bdi_congested, hs, bdi_congested_word_set_wb]
    exact test_bit_set_bit_self _ _
  · simp only [set_bdi_congested, hs, bdi_congested_word_set_wb]
    exact test_bit_set_bit_of_ne _ _ _ hne.symm
  · simp only [clear_bdi_congested, ha]
    exact set_wb_congested_idem h bdi _ (clear_bit_idem WB_async_congested)
  · simp only [clear_bdi_congested, ha, bdi_congested_word_set_wb]
    exact test_bit_clear_bit_self _ _
  · simp only [clear_bdi_congested, ha, bdi_congested_word_set_wb]
    exact test_bit_clear_bit_of_ne _ _ _ hne
  · simp only [clear_bdi_congested, hs]
    exact set_wb_congested_idem h bdi _ (clear_bit_idem WB_sync_congested)
  · simp only [clear_bdi_congested, hs, bdi_congested_word_set_wb]
    exact test_bit_clear_bit_self _ _
  · simp only [clear_bdi_congested, hs, bdi_congested_word_set_wb]
    exact test_bit_clear_bit_of_ne _ _ _ hne.symm

/-! ### Round trip and build variants -/

/-- C12: on a root context (`wb == &wb->bdi->wb`) that is not dying, the
helpers of the build with cgroup writeback agree with the stubs of the build
without it, for every implementation of `percpu_ref`: `wb_tryget` returns
true, `wb_get` and `wb_put` leave the heap as it was without a warning or a
rejection, `wb_dying` is false, and this still holds after every sequence of
calls on the root context. -/
theorem root_wb_build_variants_agree {R : Type} (ops : percpu_ref_ops R) (h : Heap R)
    (wb : WbPtr) (hroot : wb_is_root h wb = true) (hactive : wb_dying ops h wb = false) :
    wb_tryget ops h wb = NoCgroup.wb_tryget h wb ∧
      wb_get ops h wb = NoCgroup.wb_get h wb ∧
      (wb_put ops h wb).heap = NoCgroup.wb_put h wb ∧
      (wb_put ops h wb).warned = false ∧ (wb_put ops h wb).rejected = false ∧
      wb_dying ops h wb = NoCgroup.wb_dying h wb ∧
      (NoCgroup.wb_tryget h wb).1 = true ∧ (NoCgroup.wb_tryget h wb).2 = h ∧
      NoCgroup.wb_get h wb = h ∧ NoCgroup.wb_put h wb = h ∧
      NoCgroup.wb_dying h wb = false ∧
      ∀ calls : List wb_ref_call,
        run_ref_calls ops wb h calls = h ∧
          wb_dying ops (run_ref_calls ops wb h calls) wb =
            NoCgroup.wb_dying (run_ref_calls ops wb h calls) wb := by
  rw [wb_tryget_root ops h wb hroot, wb_get_root ops h wb hroot, wb_put_root ops h wb hroot,
    hactive]
  refine ⟨rfl, rfl, rfl, rfl, rfl, rfl, rfl, rfl, rfl, rfl, rfl, fun calls => ?_⟩
  rw [run_ref_calls_root ops h wb hroot calls]
  exact ⟨rfl, hactive⟩

theorem root_wb_build_variants_agree_witness :
    wb_is_root sample_heap (WbPtr.root 2) = true ∧
      wb_dying spec_ref_ops sample_heap (WbPtr.root 2) = false ∧
      wb_tryget spec_ref_ops sample_heap (WbPtr.root 2)
        = NoCgroup.wb_tryget sample_heap (WbPtr.root 2) ∧
      wb_get spec_ref_ops sample_heap (WbPtr.root 2)
        = NoCgroup.wb_get sample_heap (WbPtr.root 2) ∧
      (wb_put spec_ref_ops sample_heap (WbPtr.root 2)).heap
        = NoCgroup.wb_put sample_heap (WbPtr.root 2) :=
  ⟨by decide, by decide,
    (root_wb_build_variants_agree spec_ref_ops sample_heap (WbPtr.root 2)
      (by decide) (by decide)).1,
    (root_wb_build_variants_agree spec_ref_ops sample_heap (WbPtr.root 2)
      (by decide) (by decide)).2.1,
    (root_wb_build_variants_agree spec_ref_ops sample_heap (WbPtr.root 2)
      (by decide) (by decide)).2.2.1⟩

end BackingDev

/-! ### Scheduling domain flags -/

namespace SchedTopology

/-- C13: the flag table declares 13 flags; the first enumeration gives them
the indexes 0 to 12 in the order of the file and `__SD_FLAG_CNT` the value
13; the second gives every flag the value `1 << index`, so the values are
the powers of two from `2^0` to `2^12`, pairwise distinct, each below
`2^31`; and no flag carries both `SDF_SHARED_CHILD` and
`SDF_SHARED_PARENT`. -/
theorem sd_flag_table_indexes_and_bits :
    sd_flags.length = 13 ∧ __SD_FLAG_CNT = 13 ∧
      sd_flag_indexes =
        [
        ("__SD_BALANCE_NEWIDLE", 0),
        ("__SD_BALANCE_EXEC", 1),
        ("__SD_BALANCE_FORK", 2),
        ("__SD_BALANCE_WAKE", 3),
        ("__SD_WAKE_AFFINE", 4),
        ("__SD_ASYM_CPUCAPACITY", 5),
        ("__SD_SHARE_CPUCAPACITY", 6),
        ("__SD_SHARE_PKG_RESOURCES", 7),
        ("__SD_SERIALIZE", 8),
        ("__SD_ASYM_PACKING", 9),
        ("__SD_PREFER_SIBLING", 10),
        ("__SD_OVERLAP", 11),
        ("__SD_NUMA", 12),
        ("__SD_FLAG_CNT", 13)
        ] ∧
      sd_flag_indexes.map Prod.snd = List.range 14 ∧
      sd_flag_bits =
        [
        ("SD_BALANCE_NEWIDLE", 1),
        ("SD_BALANCE_EXEC", 2),
        ("SD_BALANCE_FORK", 4),
        ("SD_BALANCE_WAKE", 8),
        ("SD_WAKE_AFFINE", 16),
        ("SD_ASYM_CPUCAPACITY", 32),
        ("SD_SHARE_CPUCAPACITY", 64),
        ("SD_SHARE_PKG_RESOURCES", 128),
        ("SD_SERIALIZE", 256),
        ("SD_ASYM_PACKING", 512),
        ("SD_PREFER_SIBLING", 1024),
        ("SD_OVERLAP", 2048),
        ("SD_NUMA", 4096)
        ] ∧
      sd_flag_bits.map Prod.snd = (List.range 13).map (fun i => 1 <<< i) ∧
      sd_flag_bits.map Prod.snd = (List.range 13).map (fun i => 2 ^ i) ∧
      (sd_flag_bits.map Prod.snd).Nodup ∧
      (sd_flag_bits.map Prod.fst).Nodup ∧
      (sd_flag_bits.map Prod.snd).all (fun v => decide (v < 2 ^ 31)) = true ∧
      sd_flags.filter shared_child_and_parent = [] := by
  refine ⟨rfl, ?_, ?_, ?_, ?_, ?_, ?_, ?_, ?_, ?_, ?_⟩ <;> decide

end SchedTopology
